import Mathlib

/-!
Verification of the finance-api SimpleFIN reconciliation (sync) engine.

Shallow embedding of:
- `src/routers/sync.py` (`sync_simplefin`),
- `src/services/simplefin.py` (`SimpleFinClient.get_accounts` / `get_transactions`),
- `src/models.py` (the `Account` / `Transaction` columns touched by sync).

The database session is modelled as a committed `Store` plus pending
(staged, uncommitted) rows; `commit` enforces primary-key uniqueness and
the transactions-to-accounts foreign key, failing atomically otherwise.
Each HTTP request made to the SimpleFIN `/accounts` endpoint is an input
of the model (its outcome is either a parsed account list or an error
that surfaces as a `SimpleFinError`).
-/

/-- A Python numeric value as it flows through the sync path, tagged with
the runtime representation that produced it: `float q` is the result of a
Python `float(...)` conversion (its value idealised as the rational it
denotes), `decimal q` a fixed-point decimal value. -/
inductive PyNum where
  | float : ℚ → PyNum
  | decimal : ℚ → PyNum
deriving DecidableEq, Repr

/-- True exactly for values produced by a Python `float(...)` conversion. -/
def PyNum.isFloat : PyNum → Bool
  | .float _ => true
  | .decimal _ => false

/-- A raw SimpleFIN transaction dict. `account_id` is only populated once
`get_transactions` stamps the owning account id onto the record.
`posted = none` models a missing or malformed `posted` value, on which
`datetime.fromtimestamp` raises on the posted value. -/
structure ExtTx where
  id : Option String
  account_id : Option String
  posted : Option ℤ
  amount : Option ℚ
  description : Option String
  memo : Option String
  payee : Option String
  pending : Option Bool
  category : Option String
deriving DecidableEq, Repr

/-- A raw SimpleFIN account dict (`org` flattened to its `name`/`url`). -/
structure ExtAccount where
  id : Option String
  name : Option String
  currency : Option String
  type_ : Option String
  balance : Option ℚ
  org_name : Option String
  org_url : Option String
  transactions : List ExtTx
deriving DecidableEq, Repr

/-- models.py `Account`: the columns set by the sync route
(`last_updated` is server-generated and never set by sync). -/
structure Account where
  id : String
  name : String
  currency : Option String
  type_ : Option String
  balance : PyNum
  org_name : Option String
  url : Option String
deriving DecidableEq, Repr

/-- models.py `Transaction`: the columns set by the sync route, plus the
`category` label the route passes to the constructor
(`created_at` is server-generated). -/
structure Txn where
  id : String
  account_id : String
  posted_date : ℤ
  amount : PyNum
  description : Option String
  memo : Option String
  pending : Bool
  payee : Option String
  category : String
deriving DecidableEq, Repr

/-- The committed contents of the accounts and transactions tables.
Primary keys keep committed ids unique, so id-list membership models the
set lookups the route builds from its queries. -/
structure Store where
  accounts : List Account
  txns : List Txn
deriving DecidableEq, Repr

def emptyStore : Store := ⟨[], []⟩

/-- Rows staged in the SQLAlchemy session by `db.add` but not committed. -/
structure Pending where
  accounts : List Account
  txns : List Txn
deriving DecidableEq, Repr

/-- models.py line 13: `balance = Column(Numeric(15, 2))` — (precision, scale). -/
def accountBalanceColumn : Nat × Nat := (15, 2)

/-- models.py line 27: `amount = Column(Numeric(12, 2), nullable=False)`. -/
def transactionAmountColumn : Nat × Nat := (12, 2)

/-- Pairwise distinctness of staged ids (primary-key check). -/
def idsNodup : List String → Bool
  | [] => true
  | x :: xs => (!xs.contains x) && idsNodup xs

/-- The constraints the database checks when the session is flushed:
primary-key uniqueness of the staged rows (among themselves and against
committed rows) and the `transactions.account_id → accounts.id`
foreign key. -/
def commitOK (s : Store) (p : Pending) : Bool :=
  idsNodup (p.accounts.map (fun a => a.id)) &&
  (p.accounts.map (fun a => a.id)).all
    (fun i => !(s.accounts.map (fun a => a.id)).contains i) &&
  idsNodup (p.txns.map (fun t => t.id)) &&
  (p.txns.map (fun t => t.id)).all
    (fun i => !(s.txns.map (fun t => t.id)).contains i) &&
  p.txns.all (fun t =>
    (s.accounts.map (fun a => a.id)).contains t.account_id ||
    (p.accounts.map (fun a => a.id)).contains t.account_id)

/-- Model of `db.commit()`: atomically appends the staged rows to the
committed store, or fails (IntegrityError) leaving the store untouched. -/
def commit (s : Store) (p : Pending) : Except Unit Store :=
  if commitOK s p then .ok ⟨s.accounts ++ p.accounts, s.txns ++ p.txns⟩
  else .error ()

/-- Outcome of one HTTP request to the SimpleFIN `/accounts` endpoint:
either the parsed `accounts` list, or any network / auth /
malformed-response condition (all of which `SimpleFinClient` surfaces as
a `SimpleFinError`). -/
abbrev FetchResult := Except Unit (List ExtAccount)

/-- simplefin.py `get_accounts` (lines 132-178): returns the accounts list
of the response; `days_back` only parameterises the requested window and
is not validated here. -/
def get_accounts (fetch : FetchResult) : Except Unit (List ExtAccount) :=
  fetch

/-- simplefin.py `get_transactions` (lines 180-226): rejects a
non-positive `days_back` with a ValueError (wrapped into a
`SimpleFinError` by the outer handler) before any request is made;
otherwise fetches accounts with embedded transactions and flattens them,
stamping each transaction with its owning account id; an account with a
falsy id is dropped together with its transactions. -/
def get_transactions (fetch : FetchResult) (days_back : ℤ) :
    Except Unit (List ExtTx) :=
  if days_back < 1 then .error ()
  else
    match get_accounts fetch with
    | .error e => .error e
    | .ok accounts =>
      .ok (accounts.foldl (fun acc a =>
        match a.id with
        | none => acc
        | some aid =>
          if aid.isEmpty then acc
          else acc ++ a.transactions.map
            (fun t => { t with account_id := some aid })) [])

/-- sync.py lines 55-66: `account_data` construction and
`Account(**account_data)`; the float conversion of the fetched balance
(defaulting to 0) produces a Python float. -/
def mkAccount (aid : String) (a : ExtAccount) : Account :=
  { id := aid
    name := a.name.getD ""
    currency := a.currency
    type_ := a.type_
    balance := PyNum.float (a.balance.getD 0)
    org_name := a.org_name
    url := a.org_url }

/-- sync.py lines 113-126: `tx_data` construction and
`Transaction(**tx_data)`; returns `none` when
`datetime.fromtimestamp` raises on the posted value (missing or
malformed); the float conversion of the amount (defaulting to 0)
produces a Python float. -/
def mkTxn (tid aid : String) (t : ExtTx) : Option Txn :=
  match t.posted with
  | none => none
  | some p => some
    { id := tid
      account_id := aid
      posted_date := p
      amount := PyNum.float (t.amount.getD 0)
      description := t.description
      memo := t.memo
      pending := t.pending.getD false
      payee := t.payee
      category := t.category.getD "Uncategorized" }

/-- sync.py lines 42-69: stage the external accounts whose id is truthy
and not already present, in source order, counting them. The membership
set `existingIds` is the pre-run snapshot and is never extended. -/
def stageAccounts (existingIds : List String) :
    List ExtAccount → Nat × List Account
  | [] => (0, [])
  | a :: rest =>
    match a.id with
    | none => stageAccounts existingIds rest
    | some aid =>
      if aid.isEmpty then stageAccounts existingIds rest
      else if existingIds.contains aid then stageAccounts existingIds rest
      else ((stageAccounts existingIds rest).1 + 1,
            mkAccount aid a :: (stageAccounts existingIds rest).2)

/-- Loop state of the transactions phase: the committed store, the staged
uncommitted batch, `new_transaction_count`, `skipped_transactions`, and
the number of `db.commit()` calls issued by the loop. -/
structure P2State where
  store : Store
  pending : List Txn
  count : Nat
  skipped : Nat
  commits : Nat
deriving DecidableEq, Repr

/-- sync.py lines 85-140: process one fetched transaction. Guard skips
count into `skipped_transactions`; a construction error is caught and its
handler calls `db.rollback()` (clearing the whole staged batch) and
counts the record as skipped; every tenth staged record triggers a batch
commit inside the same try, whose failure is likewise caught by the
per-record handler. -/
def processTx (accIds txIds : List String) (st : P2State) (t : ExtTx) :
    P2State :=
  if (t.id.getD "").isEmpty then { st with skipped := st.skipped + 1 }
  else if (t.account_id.getD "").isEmpty then
    { st with skipped := st.skipped + 1 }
  else if txIds.contains (t.id.getD "") then
    { st with skipped := st.skipped + 1 }
  else if !(accIds.contains (t.account_id.getD "")) then
    { st with skipped := st.skipped + 1 }
  else
    match mkTxn (t.id.getD "") (t.account_id.getD "") t with
    | none => { st with pending := [], skipped := st.skipped + 1 }
    | some row =>
      if (st.count + 1) % 10 == 0 then
        match commit st.store ⟨[], st.pending ++ [row]⟩ with
        | .ok s2 =>
          { st with store := s2, pending := [], count := st.count + 1,
                    commits := st.commits + 1 }
        | .error _ =>
          { st with pending := [], count := st.count + 1,
                    skipped := st.skipped + 1, commits := st.commits + 1 }
      else { st with pending := st.pending ++ [row], count := st.count + 1 }

/-- The JSON body returned by a successful sync run (the `status` and
`timestamp` fields carry no reconciliation state and are omitted). -/
structure SyncReport where
  new_accounts_added : Nat
  new_transactions_added : Nat
  skipped_transactions : Nat
  total_accounts : Nat
  total_transactions : Nat
deriving DecidableEq, Repr

/-- How one call of the sync endpoint ends: a 200 with a report, a 400
raised by the `except SimpleFinError` handler, or a 500 raised by the
generic `except Exception` handler. -/
inductive Outcome where
  | ok : SyncReport → Outcome
  | http400 : Outcome
  | http500 : Outcome
deriving DecidableEq, Repr

/-- Result of one run: the HTTP outcome, the committed store afterwards,
and how many `db.commit()` calls the run issued. -/
structure RunResult where
  outcome : Outcome
  store : Store
  commitCalls : Nat
deriving DecidableEq, Repr

/-- sync.py lines 42-74 (phase 1): stage new accounts and, when any were
staged, commit them in one batch; a failed commit raises out of the
route (IntegrityError is not a `SimpleFinError`). Returns the committed
store, `new_account_count` and the commits issued. -/
def phase1 (db : Store) (accounts : List ExtAccount) :
    Except Unit (Store × Nat × Nat) :=
  if (stageAccounts (db.accounts.map (fun a => a.id)) accounts).1 > 0 then
    match commit db
        ⟨(stageAccounts (db.accounts.map (fun a => a.id)) accounts).2, []⟩ with
    | .ok db1 =>
      .ok (db1, (stageAccounts (db.accounts.map (fun a => a.id)) accounts).1, 1)
    | .error _ => .error ()
  else .ok (db, (stageAccounts (db.accounts.map (fun a => a.id)) accounts).1, 0)

/-- sync.py lines 76-140 (phase 2 loop): fold the fetched transactions
through `processTx`, starting from the post-phase-1 store with nothing
staged. `accIds` is the account-id snapshot taken before phase 1. -/
def phase2 (accIds : List String) (db1 : Store) (txs : List ExtTx) :
    P2State :=
  txs.foldl (processTx accIds (db1.txns.map (fun t => t.id)))
    ⟨db1, [], 0, 0, 0⟩

/-- sync.py lines 142-157: the final commit (issued whenever
`new_transaction_count > 0`, outside any try, so its failure reaches the
generic 500 handler) and the report. `existLenA` is the pre-run account
count, `existLenT` the post-phase-1 transaction-id count. -/
def finishRun (nAcc existLenA existLenT c1 : Nat) (st : P2State) :
    RunResult :=
  if st.count > 0 then
    match commit st.store ⟨[], st.pending⟩ with
    | .ok s2 =>
      ⟨.ok ⟨nAcc, st.count, st.skipped, existLenA + nAcc,
            existLenT + st.count⟩,
       s2, c1 + st.commits + 1⟩
    | .error _ => ⟨.http500, st.store, c1 + st.commits + 1⟩
  else
    ⟨.ok ⟨nAcc, st.count, st.skipped, existLenA + nAcc,
          existLenT + st.count⟩,
     st.store, c1 + st.commits⟩

/-- sync.py `sync_simplefin`: one reconciliation run. `accountsFetch` is
the outcome of the HTTP request made by the phase-1 `get_accounts` call;
`txFetch` the outcome of the separate request made inside
`get_transactions`. A `SimpleFinError` anywhere maps to 400, any other
exception to 500; both handlers roll back the session (which cannot undo
commits already issued). -/
def sync_simplefin (accountsFetch txFetch : FetchResult) (days_back : ℤ)
    (db : Store) : RunResult :=
  match get_accounts accountsFetch with
  | .error _ => ⟨.http400, db, 0⟩
  | .ok accounts =>
    match phase1 db accounts with
    | .error _ => ⟨.http500, db, 1⟩
    | .ok (db1, nAcc, c1) =>
      match get_transactions txFetch days_back with
      | .error _ => ⟨.http400, db1, c1⟩
      | .ok txs =>
        finishRun nAcc db.accounts.length
          (db1.txns.map (fun t => t.id)).length c1
          (phase2 (db.accounts.map (fun a => a.id)) db1 txs)

/-- sync.py line 19: the endpoint signature `days_back: int = 30` — the
lookback defaults to 30 and is not otherwise validated by the route. -/
def days_back_default : ℤ := 30

/-- The committed store only ever grows by appended rows, so every
pre-existing row keeps its position and its field values. -/
def StoreExt (s s2 : Store) : Prop :=
  (∃ l, s2.accounts = s.accounts ++ l) ∧ (∃ l, s2.txns = s.txns ++ l)

/-- An invariant on the rows held by the transactions phase (committed
store plus staged batch), preserved by every loop step provided every row
`mkTxn` builds for an account id passing the membership guard satisfies
it. -/
def P2TxInv (P : Txn → Prop) (st : P2State) : Prop :=
  (∀ t ∈ st.store.txns, P t) ∧ (∀ t ∈ st.pending, P t)

/-! Concrete scenario inputs used by the claim theorems. -/

/-- The spec scenario transaction T1 (owned by A1, amount -20.00). -/
def extT1 : ExtTx :=
  { id := some "T1", account_id := none, posted := some 1700000000,
    amount := some (-20), description := none, memo := none,
    payee := none, pending := none, category := none }

/-- The spec scenario account A1 (name "Checking", balance 100.00) with
T1 embedded. -/
def extA1 : ExtAccount :=
  { id := some "A1", name := some "Checking", currency := none,
    type_ := none, balance := some 100, org_name := none, org_url := none,
    transactions := [extT1] }

/-- Adapter snapshot returning exactly A1 (with embedded T1). -/
def fetchA1 : FetchResult := .ok [extA1]

/-- The Account row phase 1 stages for A1. -/
def rowA1 : Account := mkAccount "A1" extA1

/-- The Transaction row phase 2 stages for T1 once "A1" is known. -/
def rowT1 : Txn :=
  { id := "T1", account_id := "A1", posted_date := 1700000000,
    amount := PyNum.float (-20), description := none, memo := none,
    pending := false, payee := none, category := "Uncategorized" }

/-- A store already holding exactly the A1 row. -/
def storeA1 : Store := ⟨[rowA1], []⟩

/-- A1 as returned again by the adapter with a different balance (250.00)
and no embedded transactions. -/
def extA1b : ExtAccount :=
  { extA1 with balance := some 250, transactions := [] }

/-- A well-formed transaction owned by A1. -/
def extTgood : ExtTx := { extT1 with id := some "TG" }

/-- A transaction owned by A1 whose `posted` value is missing/malformed,
so building its row raises. -/
def extTbad : ExtTx := { extT1 with id := some "TB", posted := none }

/-- A1 carrying a good transaction followed by a malformed one. -/
def extA1mixed : ExtAccount :=
  { extA1 with transactions := [extTgood, extTbad] }

/-- A second external account record with the same id "A1". -/
def extA1dup : ExtAccount := { extA1 with name := some "Checking dup" }

/-- extTbad as stamped with owning account "A1" by get_transactions. -/
def extTbadStamped : ExtTx := { extTbad with account_id := some "A1" }

/-- A transaction referencing an account id "A9" that is known nowhere. -/
def extT9 : ExtTx :=
  { extT1 with id := some "T9", account_id := some "A9" }

/-! Helper lemmas about the engine. -/

/-- A successful commit appends exactly the staged rows. -/
lemma commit_ok_eq {s : Store} {p : Pending} {s2 : Store}
    (h : commit s p = .ok s2) :
    s2 = ⟨s.accounts ++ p.accounts, s.txns ++ p.txns⟩ := by
  unfold commit at h
  split at h
  · injection h with h
    exact h.symm
  · cases h

lemma StoreExt.rfl (s : Store) : StoreExt s s :=
  ⟨⟨[], by simp⟩, ⟨[], by simp⟩⟩

lemma StoreExt.trans {a b c : Store} (h1 : StoreExt a b)
    (h2 : StoreExt b c) : StoreExt a c := by
  obtain ⟨⟨l1, e1⟩, ⟨l2, e2⟩⟩ := h1
  obtain ⟨⟨l3, e3⟩, ⟨l4, e4⟩⟩ := h2
  exact ⟨⟨l1 ++ l3, by rw [e3, e1, List.append_assoc]⟩,
         ⟨l2 ++ l4, by rw [e4, e2, List.append_assoc]⟩⟩

lemma commit_ext {s : Store} {p : Pending} {s2 : Store}
    (h : commit s p = .ok s2) : StoreExt s s2 := by
  rw [commit_ok_eq h]
  exact ⟨⟨p.accounts, by simp⟩, ⟨p.txns, by simp⟩⟩

/-- One phase-2 step never rewrites or deletes committed rows. -/
lemma processTx_ext (accIds txIds : List String) (st : P2State)
    (t : ExtTx) : StoreExt st.store (processTx accIds txIds st t).store := by
  unfold processTx
  split
  · exact StoreExt.rfl _
  · split
    · exact StoreExt.rfl _
    · split
      · exact StoreExt.rfl _
      · split
        · exact StoreExt.rfl _
        · split
          · exact StoreExt.rfl _
          · split
            · split
              · rename_i s2 heq
                exact commit_ext heq
              · exact StoreExt.rfl _
            · exact StoreExt.rfl _

/-- The phase-2 loop never rewrites or deletes committed rows. -/
lemma foldl_processTx_ext (accIds txIds : List String)
    (txs : List ExtTx) :
    ∀ st : P2State,
      StoreExt st.store (txs.foldl (processTx accIds txIds) st).store := by
  induction txs with
  | nil => intro st; exact StoreExt.rfl _
  | cons t rest ih =>
    intro st
    rw [List.foldl_cons]
    exact StoreExt.trans (processTx_ext accIds txIds st t) (ih _)

/-- Characterisation of a successful phase 1: the reported count is the
staged count, no transaction rows are touched, and the accounts table
grows exactly by the staged rows (or not at all). -/
lemma phase1_ok_spec {db : Store} {accounts : List ExtAccount}
    {db1 : Store} {n c : Nat}
    (h : phase1 db accounts = .ok (db1, n, c)) :
    n = (stageAccounts (db.accounts.map (fun a => a.id)) accounts).1 ∧
    db1.txns = db.txns ∧
    (db1.accounts = db.accounts ++
        (stageAccounts (db.accounts.map (fun a => a.id)) accounts).2 ∨
      db1.accounts = db.accounts) := by
  unfold phase1 at h
  split at h
  · split at h
    · rename_i s2 heq
      injection h with h
      obtain ⟨h1, h2⟩ := Prod.mk.injEq _ _ _ _ ▸ h
      obtain ⟨h2, h3⟩ := Prod.mk.injEq _ _ _ _ ▸ h2
      subst h1
      have := commit_ok_eq heq
      subst this
      exact ⟨h2.symm, by simp, Or.inl (by simp)⟩
    · cases h
  · injection h with h
    obtain ⟨h1, h2⟩ := Prod.mk.injEq _ _ _ _ ▸ h
    obtain ⟨h2, h3⟩ := Prod.mk.injEq _ _ _ _ ▸ h2
    subst h1
    exact ⟨h2.symm, rfl, Or.inr rfl⟩

lemma phase1_ext {db : Store} {accounts : List ExtAccount}
    {db1 : Store} {n c : Nat}
    (h : phase1 db accounts = .ok (db1, n, c)) : StoreExt db db1 := by
  obtain ⟨-, ht, ha⟩ := phase1_ok_spec h
  rcases ha with ha | ha
  · exact ⟨⟨_, ha⟩, ⟨[], by simp [ht]⟩⟩
  · exact ⟨⟨[], by simp [ha]⟩, ⟨[], by simp [ht]⟩⟩

/-- The final commit and report step never rewrites committed rows. -/
lemma finishRun_ext (nAcc eA eT c1 : Nat) (st : P2State) :
    StoreExt st.store (finishRun nAcc eA eT c1 st).store := by
  unfold finishRun
  split
  · split
    · rename_i s2 heq
      exact commit_ext heq
    · exact StoreExt.rfl _
  · exact StoreExt.rfl _

/-- A row successfully built by `mkTxn` carries the validated ids and a
float-converted amount. -/
lemma mkTxn_eq {tid aid : String} {t : ExtTx} {row : Txn}
    (h : mkTxn tid aid t = some row) :
    row.id = tid ∧ row.account_id = aid ∧ row.amount.isFloat = true := by
  unfold mkTxn at h
  split at h
  · cases h
  · injection h with h
    subst h
    exact ⟨rfl, rfl, rfl⟩

/-- Every account staged by phase 1 carries a float-converted balance. -/
lemma stageAccounts_balance_float (existingIds : List String)
    (l : List ExtAccount) :
    ∀ a ∈ (stageAccounts existingIds l).2, a.balance.isFloat = true := by
  induction l with
  | nil => intro a ha; simp [stageAccounts] at ha
  | cons x rest ih =>
    intro a ha
    unfold stageAccounts at ha
    split at ha
    · exact ih a ha
    · split at ha
      · exact ih a ha
      · split at ha
        · exact ih a ha
        · rcases List.mem_cons.mp ha with rfl | ha
          · rfl
          · exact ih a ha

lemma processTx_txn_inv {P : Txn → Prop} {accIds txIds : List String}
    (hP : ∀ tid aid t row, mkTxn tid aid t = some row →
      accIds.contains aid = true → P row)
    {st : P2State} (h : P2TxInv P st) (t : ExtTx) :
    P2TxInv P (processTx accIds txIds st t) := by
  obtain ⟨hs, hp⟩ := h
  unfold processTx
  split
  · exact ⟨hs, hp⟩
  · split
    · exact ⟨hs, hp⟩
    · split
      · exact ⟨hs, hp⟩
      · split
        · exact ⟨hs, hp⟩
        · rename_i hguard
          split
          · exact ⟨hs, by intro u hu; cases hu⟩
          · rename_i row hrow
            have hacc : accIds.contains (t.account_id.getD "") = true := by
              cases hq : accIds.contains (t.account_id.getD "") with
              | true => rfl
              | false => rw [hq] at hguard; simp at hguard
            have hrowP : P row := hP _ _ _ _ hrow hacc
            split
            · split
              · rename_i s2 heq
                have h2 := commit_ok_eq heq
                subst h2
                refine ⟨?_, by intro u hu; cases hu⟩
                intro u hu
                rcases List.mem_append.mp hu with hu | hu
                · exact hs u hu
                · rcases List.mem_append.mp hu with hu | hu
                  · exact hp u hu
                  · rcases List.mem_singleton.mp hu with rfl
                    exact hrowP
              · exact ⟨hs, by intro u hu; cases hu⟩
            · refine ⟨hs, ?_⟩
              intro u hu
              rcases List.mem_append.mp hu with hu | hu
              · exact hp u hu
              · rcases List.mem_singleton.mp hu with rfl
                exact hrowP

lemma foldl_processTx_txn_inv {P : Txn → Prop} {accIds txIds : List String}
    (hP : ∀ tid aid t row, mkTxn tid aid t = some row →
      accIds.contains aid = true → P row)
    (txs : List ExtTx) :
    ∀ st : P2State, P2TxInv P st →
      P2TxInv P (txs.foldl (processTx accIds txIds) st) := by
  induction txs with
  | nil => intro st h; exact h
  | cons t rest ih =>
    intro st h
    rw [List.foldl_cons]
    exact ih _ (processTx_txn_inv hP h t)

/-- After the final commit, every transaction row satisfies the phase
invariant. -/
lemma finishRun_txn_inv {P : Txn → Prop} {nAcc eA eT c1 : Nat}
    {st : P2State} (h : P2TxInv P st) :
    ∀ t ∈ (finishRun nAcc eA eT c1 st).store.txns, P t := by
  obtain ⟨hs, hp⟩ := h
  unfold finishRun
  split
  · split
    · rename_i s2 heq
      have h2 := commit_ok_eq heq
      subst h2
      intro u hu
      rcases List.mem_append.mp hu with hu | hu
      · exact hs u hu
      · exact hp u hu
    · exact hs
  · exact hs

/-- Phase-2 steps leave the accounts table exactly as it was. -/
lemma processTx_accounts (accIds txIds : List String) (st : P2State)
    (t : ExtTx) :
    (processTx accIds txIds st t).store.accounts = st.store.accounts := by
  unfold processTx
  split
  · rfl
  · split
    · rfl
    · split
      · rfl
      · split
        · rfl
        · split
          · rfl
          · split
            · split
              · rename_i s2 heq
                have h2 := commit_ok_eq heq
                subst h2
                simp
              · rfl
            · rfl

lemma foldl_processTx_accounts (accIds txIds : List String)
    (txs : List ExtTx) :
    ∀ st : P2State,
      (txs.foldl (processTx accIds txIds) st).store.accounts =
        st.store.accounts := by
  induction txs with
  | nil => intro st; rfl
  | cons t rest ih =>
    intro st
    rw [List.foldl_cons, ih, processTx_accounts]

lemma finishRun_accounts (nAcc eA eT c1 : Nat) (st : P2State) :
    (finishRun nAcc eA eT c1 st).store.accounts = st.store.accounts := by
  unfold finishRun
  split
  · split
    · rename_i s2 heq
      have h2 := commit_ok_eq heq
      subst h2
      simp
    · rfl
  · rfl

/-- The five possible shapes of one phase-2 step. -/
lemma processTx_cases (accIds txIds : List String) (st : P2State)
    (t : ExtTx) :
    processTx accIds txIds st t = { st with skipped := st.skipped + 1 } ∨
    processTx accIds txIds st t =
      { st with pending := [], skipped := st.skipped + 1 } ∨
    (∃ s2, processTx accIds txIds st t =
      { st with store := s2, pending := [], count := st.count + 1,
                commits := st.commits + 1 }) ∨
    processTx accIds txIds st t =
      { st with pending := [], count := st.count + 1,
                skipped := st.skipped + 1, commits := st.commits + 1 } ∨
    (∃ row, processTx accIds txIds st t =
      { st with pending := st.pending ++ [row], count := st.count + 1 }) := by
  unfold processTx
  repeat' split
  · exact Or.inl rfl
  · exact Or.inl rfl
  · exact Or.inl rfl
  · exact Or.inl rfl
  · exact Or.inr (Or.inl rfl)
  · exact Or.inr (Or.inr (Or.inl ⟨_, rfl⟩))
  · exact Or.inr (Or.inr (Or.inr (Or.inl rfl)))
  · exact Or.inr (Or.inr (Or.inr (Or.inr ⟨_, rfl⟩)))

/-- The staged-transaction counter never decreases across one step. -/
lemma processTx_count_mono (accIds txIds : List String) (st : P2State)
    (t : ExtTx) : st.count ≤ (processTx accIds txIds st t).count := by
  rcases processTx_cases accIds txIds st t with h | h | ⟨s2, h⟩ | h | ⟨row, h⟩ <;>
    rw [h] <;> simp

/-- A step that stages nothing leaves the committed store and the commit
counter untouched. -/
lemma processTx_count_eq {accIds txIds : List String} {st : P2State}
    {t : ExtTx} (h : (processTx accIds txIds st t).count = st.count) :
    (processTx accIds txIds st t).store = st.store ∧
    (processTx accIds txIds st t).commits = st.commits := by
  rcases processTx_cases accIds txIds st t with hc | hc | ⟨s2, hc⟩ | hc | ⟨row, hc⟩ <;>
    rw [hc] <;> rw [hc] at h <;> simp_all

lemma foldl_processTx_count_mono (accIds txIds : List String)
    (txs : List ExtTx) :
    ∀ st : P2State, st.count ≤ (txs.foldl (processTx accIds txIds) st).count := by
  induction txs with
  | nil => intro st; exact Nat.le_refl _
  | cons t rest ih =>
    intro st
    rw [List.foldl_cons]
    exact Nat.le_trans (processTx_count_mono accIds txIds st t) (ih _)

/-- A loop that stages nothing commits nothing and leaves the store
untouched. -/
lemma foldl_processTx_count_eq (accIds txIds : List String)
    (txs : List ExtTx) :
    ∀ st : P2State,
      (txs.foldl (processTx accIds txIds) st).count = st.count →
      (txs.foldl (processTx accIds txIds) st).store = st.store ∧
      (txs.foldl (processTx accIds txIds) st).commits = st.commits := by
  induction txs with
  | nil => intro st _; exact ⟨rfl, rfl⟩
  | cons t rest ih =>
    intro st h
    rw [List.foldl_cons] at h ⊢
    have hmono1 := processTx_count_mono accIds txIds st t
    have hmono2 := foldl_processTx_count_mono accIds txIds rest
      (processTx accIds txIds st t)
    have h1 : (processTx accIds txIds st t).count = st.count :=
      Nat.le_antisymm (by rw [← h]; exact hmono2) hmono1
    have h2 := processTx_count_eq h1
    have h3 := ih (processTx accIds txIds st t) (by rw [h, h1])
    exact ⟨h3.1.trans h2.1, h3.2.trans h2.2⟩

/-- A successful report carries the staged-account count of phase 1 and
the staged-transaction count of the loop. -/
lemma finishRun_ok_report {nAcc eA eT c1 : Nat} {st : P2State}
    {rep : SyncReport}
    (h : (finishRun nAcc eA eT c1 st).outcome = .ok rep) :
    rep.new_accounts_added = nAcc ∧
    rep.new_transactions_added = st.count := by
  unfold finishRun at h
  split at h
  · split at h
    · injection h with h
      subst h
      exact ⟨rfl, rfl⟩
    · cases h
  · injection h with h
    subst h
    exact ⟨rfl, rfl⟩

/-- A full sync run only ever appends rows to the store. -/
lemma sync_simplefin_ext (af tf : FetchResult) (d : ℤ) (db : Store) :
    StoreExt db (sync_simplefin af tf d db).store := by
  unfold sync_simplefin get_accounts
  cases af with
  | error e => exact StoreExt.rfl _
  | ok accounts =>
    dsimp only
    cases hp : phase1 db accounts with
    | error e => exact StoreExt.rfl _
    | ok res =>
      obtain ⟨db1, n, c⟩ := res
      dsimp only
      have hext1 := phase1_ext hp
      cases hgt : get_transactions tf d with
      | error e => exact hext1
      | ok txs =>
        dsimp only
        refine StoreExt.trans hext1 (StoreExt.trans ?_ (finishRun_ext _ _ _ _ _))
        exact foldl_processTx_ext _ _ txs ⟨db1, [], 0, 0, 0⟩

/-- Every transaction row after a run either pre-existed or satisfies any
property enjoyed by the rows `mkTxn` builds under the account guard. -/
lemma sync_txn_rows (af tf : FetchResult) (d : ℤ) (db : Store)
    (P : Txn → Prop)
    (hmk : ∀ tid aid t row, mkTxn tid aid t = some row →
      (db.accounts.map (fun a => a.id)).contains aid = true → P row)
    (hpre : ∀ t ∈ db.txns, P t) :
    ∀ t ∈ (sync_simplefin af tf d db).store.txns, P t := by
  unfold sync_simplefin get_accounts
  cases af with
  | error e => exact hpre
  | ok accounts =>
    dsimp only
    cases hp : phase1 db accounts with
    | error e => exact hpre
    | ok res =>
      obtain ⟨db1, n, c⟩ := res
      dsimp only
      have htx : db1.txns = db.txns := (phase1_ok_spec hp).2.1
      have hdb1 : ∀ t ∈ db1.txns, P t := by rw [htx]; exact hpre
      cases hgt : get_transactions tf d with
      | error e => exact hdb1
      | ok txs =>
        dsimp only
        apply finishRun_txn_inv
        unfold phase2
        exact foldl_processTx_txn_inv hmk txs ⟨db1, [], 0, 0, 0⟩
          ⟨hdb1, by intro u hu; cases hu⟩

/-- Every account row after a run either pre-existed or carries a
float-converted balance. -/
lemma sync_accounts_float (af tf : FetchResult) (d : ℤ) (db : Store) :
    ∀ a ∈ (sync_simplefin af tf d db).store.accounts,
      a ∈ db.accounts ∨ a.balance.isFloat = true := by
  unfold sync_simplefin get_accounts
  cases af with
  | error e => intro a ha; exact Or.inl ha
  | ok accounts =>
    dsimp only
    cases hp : phase1 db accounts with
    | error e => intro a ha; exact Or.inl ha
    | ok res =>
      obtain ⟨db1, n, c⟩ := res
      dsimp only
      have hacc := (phase1_ok_spec hp).2.2
      have hdb1 : ∀ a ∈ db1.accounts,
          a ∈ db.accounts ∨ a.balance.isFloat = true := by
        rcases hacc with h | h
        · intro a ha
          rw [h] at ha
          rcases List.mem_append.mp ha with ha | ha
          · exact Or.inl ha
          · exact Or.inr (stageAccounts_balance_float _ _ a ha)
        · intro a ha
          rw [h] at ha
          exact Or.inl ha
      cases hgt : get_transactions tf d with
      | error e => exact hdb1
      | ok txs =>
        dsimp only
        intro a ha
        rw [finishRun_accounts] at ha
        unfold phase2 at ha
        rw [foldl_processTx_accounts] at ha
        exact hdb1 a ha

/-! Claim theorems. -/

/-- C1: the claim that a second `reconcile(N)` run against an unchanged
external snapshot reports zero added accounts and transactions fails on
the code: `existing_account_ids` (sync.py line 39) is never extended with
the accounts phase 1 inserts, so on an empty store the first run adds A1
but skips the transaction T1 of A1 (line 106 checks the pre-run snapshot),
and the second run — for which A1 now pre-exists — inserts T1 and
reports `new_transactions_added = 1`. -/
theorem C1_second_run_adds_transactions :
    (sync_simplefin fetchA1 fetchA1 30 emptyStore).outcome =
      .ok ⟨1, 0, 1, 1, 0⟩ ∧
    (sync_simplefin fetchA1 fetchA1 30
        ((sync_simplefin fetchA1 fetchA1 30 emptyStore).store)).outcome =
      .ok ⟨0, 1, 0, 1, 1⟩ :=
  ⟨rfl, rfl⟩

/-- C2: the claim that transactions are validated against the union of
pre-existing and phase-1-inserted account ids fails on the code: in the
scenario of the spec itself (empty store, adapter returns A1 with transaction
T1), the run reports `new_accounts_added = 1` but skips T1
(`new_transactions_added = 0`, `skipped_transactions = 1`) because the
membership set is the pre-run snapshot, and the store afterwards holds A1
but not T1. -/
theorem C2_scenario_new_account_transaction_skipped :
    sync_simplefin fetchA1 fetchA1 30 emptyStore =
      ⟨.ok ⟨1, 0, 1, 1, 0⟩, ⟨[rowA1], []⟩, 1⟩ :=
  rfl

/-- C3 counterexample: with pre-existing account A1 and an adapter batch
of one good transaction followed by one with a malformed `posted`, the
run reports `new_transactions_added = 1` yet the store gains no
transaction row at all — the rollback in the handler dropped the staged good
record, so the batch is not committed and the counter does not match the
durably inserted rows. -/
theorem C3_counterexample_staged_batch_lost :
    (sync_simplefin (.ok [extA1mixed]) (.ok [extA1mixed]) 30
        storeA1).outcome = .ok ⟨0, 1, 1, 1, 1⟩ ∧
    (sync_simplefin (.ok [extA1mixed]) (.ok [extA1mixed]) 30
        storeA1).store.txns = [] :=
  ⟨rfl, rfl⟩

/-- C3 (amended): a per-record construction failure is caught, counted in
`skipped_transactions`, and the loop continues with the committed store,
counters and commit count untouched — but the `db.rollback()` in the handler
discards the entire staged uncommitted batch (`pending` becomes empty),
so other transactions staged in the current batch are lost rather than
committed, and `new_transactions_added` counts staged, not durably
inserted, records. -/
theorem C3_construction_error_isolated_but_batch_dropped
    (accIds txIds : List String) (st : P2State) (t : ExtTx)
    (h1 : (t.id.getD "").isEmpty = false)
    (h2 : (t.account_id.getD "").isEmpty = false)
    (h3 : txIds.contains (t.id.getD "") = false)
    (h4 : accIds.contains (t.account_id.getD "") = true)
    (h5 : t.posted = none) :
    processTx accIds txIds st t =
      { st with pending := [], skipped := st.skipped + 1 } := by
  unfold processTx mkTxn
  simp only [h1, h2, h3, h4, h5]
  rfl

theorem C3_construction_error_isolated_witness :
    processTx ["A1"] [] ⟨storeA1, [rowT1], 1, 0, 0⟩ extTbadStamped =
      ⟨storeA1, [], 1, 1, 0⟩ :=
  C3_construction_error_isolated_but_batch_dropped ["A1"] []
    ⟨storeA1, [rowT1], 1, 0, 0⟩ extTbadStamped rfl rfl rfl rfl rfl

/-- C4 counterexample: the transactions fetch of the adapter is made only
after phase 1 has committed (sync.py line 83 follows line 73), so a run
whose accounts fetch succeeds but whose transactions fetch raises a
`SimpleFinError` returns 400 with account A1 already durably committed —
the store after the failed run differs from the store before it. -/
theorem C4_counterexample_phase1_writes_persist :
    sync_simplefin fetchA1 (.error ()) 30 emptyStore =
      ⟨.http400, ⟨[rowA1], []⟩, 1⟩ ∧
    (⟨[rowA1], []⟩ : Store) ≠ emptyStore :=
  ⟨rfl, by decide⟩

/-- C4 (amended): a failure of the accounts fetch aborts the run as 400
(sync-source-unavailable) before any write — the store is unchanged and
no commit is issued; a failure of the transactions fetch after a
successful accounts phase likewise aborts as 400 with no transaction
writes, but the accounts committed by phase 1 remain in the store. -/
theorem C4_adapter_failure_semantics :
    (∀ tf : FetchResult, ∀ d : ℤ, ∀ db : Store,
      sync_simplefin (.error ()) tf d db = ⟨.http400, db, 0⟩) ∧
    (∀ tf : FetchResult, ∀ d : ℤ, ∀ db db1 : Store,
      ∀ accounts : List ExtAccount, ∀ n c : Nat,
      phase1 db accounts = .ok (db1, n, c) →
      get_transactions tf d = .error () →
      sync_simplefin (.ok accounts) tf d db = ⟨.http400, db1, c⟩ ∧
      db1.txns = db.txns ∧ ∃ l, db1.accounts = db.accounts ++ l) := by
  constructor
  · intro tf d db
    rfl
  · intro tf d db db1 accounts n c hp hgt
    refine ⟨?_, (phase1_ok_spec hp).2.1, ?_⟩
    · unfold sync_simplefin get_accounts
      dsimp only
      rw [hp]
      dsimp only
      rw [hgt]
    · rcases (phase1_ok_spec hp).2.2 with h | h
      · exact ⟨_, h⟩
      · exact ⟨[], by simp [h]⟩

theorem C4_adapter_failure_semantics_witness :
    sync_simplefin (.ok [extA1]) (.error ()) 30 emptyStore =
      ⟨.http400, ⟨[rowA1], []⟩, 1⟩ ∧
    (⟨[rowA1], []⟩ : Store).txns = emptyStore.txns ∧
    ∃ l, (⟨[rowA1], []⟩ : Store).accounts = emptyStore.accounts ++ l :=
  C4_adapter_failure_semantics.2 (.error ()) 30 emptyStore ⟨[rowA1], []⟩
    [extA1] 1 1 rfl rfl

/-- C5: additive-only frame property: every reconcile call leaves all
pre-existing Account and Transaction rows in place with unchanged field
values (the pre-run tables are an initial segment of the post-run
tables); in the scenario of the spec, where the store already holds A1 and the
adapter returns A1 again with balance 250.00, the run reports
`new_accounts_added = 0`, issues no commit, and the stored A1 keeps its
balance of 100.00. -/
theorem C5_additivity_frame :
    (∀ af tf : FetchResult, ∀ d : ℤ, ∀ db : Store,
      StoreExt db (sync_simplefin af tf d db).store) ∧
    sync_simplefin (.ok [extA1b]) (.ok [extA1b]) 30 storeA1 =
      ⟨.ok ⟨0, 0, 0, 1, 0⟩, storeA1, 0⟩ ∧
    rowA1.balance = PyNum.float 100 :=
  ⟨sync_simplefin_ext, rfl, rfl⟩

/-- C6 counterexample: when the staged accounts batch violates uniqueness
(the adapter returned the new id "A1" twice), the commit fails and the
route reports HTTP 500 through the generic handler — not the claimed 400
sync-conflict. -/
theorem C6_counterexample_conflict_reported_500 :
    sync_simplefin (.ok [extA1, extA1dup]) (.ok [extA1, extA1dup]) 30
        emptyStore = ⟨.http500, emptyStore, 1⟩ ∧
    Outcome.http500 ≠ Outcome.http400 :=
  ⟨rfl, by decide⟩

/-- C6 (amended): if the staged accounts batch violates the uniqueness
constraint at commit, the batch fails atomically (the store is unchanged,
so there is no partial account commit), the transactions phase is never
attempted (the run ends after that single commit call) — but the failure
surfaces through the generic exception handler as HTTP 500, not as a 400
sync-conflict. -/
theorem C6_account_conflict_atomic_but_500
    (tf : FetchResult) (d : ℤ) (db : Store) (accounts : List ExtAccount)
    (hn : (stageAccounts (db.accounts.map (fun a => a.id)) accounts).1 > 0)
    (hc : commit db
      ⟨(stageAccounts (db.accounts.map (fun a => a.id)) accounts).2, []⟩ =
      .error ()) :
    sync_simplefin (.ok accounts) tf d db = ⟨.http500, db, 1⟩ := by
  unfold sync_simplefin get_accounts phase1
  dsimp only
  rw [if_pos hn, hc]

theorem C6_account_conflict_atomic_but_500_witness :
    sync_simplefin (.ok [extA1, extA1dup]) fetchA1 30 emptyStore =
      ⟨.http500, emptyStore, 1⟩ :=
  C6_account_conflict_atomic_but_500 fetchA1 30 emptyStore
    [extA1, extA1dup] (by decide) rfl

/-- C7: foreign-key safety: every transaction row present after a run
either pre-existed or references an account of the pre-run store (such
accounts stay in the store for the whole run, so the reference is valid
at insertion time); and any fetched transaction whose owning account id
is not in the membership snapshot the loop checks is only counted into
`skipped_transactions` — the loop state is otherwise untouched, so the
record is never staged or inserted. -/
theorem C7_foreign_key_safety :
    (∀ af tf : FetchResult, ∀ d : ℤ, ∀ db : Store,
      ∀ t ∈ (sync_simplefin af tf d db).store.txns,
        t ∈ db.txns ∨
          (db.accounts.map (fun a => a.id)).contains t.account_id = true) ∧
    (∀ accIds txIds : List String, ∀ st : P2State, ∀ t : ExtTx,
      accIds.contains (t.account_id.getD "") = false →
      processTx accIds txIds st t =
        { st with skipped := st.skipped + 1 }) := by
  constructor
  · intro af tf d db
    exact sync_txn_rows af tf d db _
      (fun tid aid u row hrow hc => Or.inr ((mkTxn_eq hrow).2.1 ▸ hc))
      (fun t ht => Or.inl ht)
  · intro accIds txIds st t h
    unfold processTx
    split
    · rfl
    · split
      · rfl
      · split
        · rfl
        · split
          · rfl
          · rename_i h4
            rw [h] at h4
            simp at h4

theorem C7_foreign_key_safety_witness :
    (rowT1 ∈ storeA1.txns ∨
      (storeA1.accounts.map (fun a => a.id)).contains rowT1.account_id =
        true) ∧
    processTx ["A1"] [] ⟨storeA1, [], 0, 0, 0⟩ extT9 =
      ⟨storeA1, [], 0, 1, 0⟩ :=
  ⟨C7_foreign_key_safety.1 fetchA1 fetchA1 30 storeA1 rowT1 (by decide),
   C7_foreign_key_safety.2 ["A1"] [] ⟨storeA1, [], 0, 0, 0⟩ extT9 rfl⟩

/-- C8 counterexample: in the scenario run of the spec the account row stored
by sync carries a balance produced by Python `float(...)` — the amount
was handled as floating point on its way into the store, so the claimed
"never as floating point" fails at this input. -/
theorem C8_counterexample_stored_balance_from_float :
    ((sync_simplefin fetchA1 fetchA1 30 emptyStore).store.accounts.map
      (fun a => a.balance)) = [PyNum.float 100] ∧
    (PyNum.float 100).isFloat = true :=
  ⟨rfl, rfl⟩

/-- C8 (amended): the storage columns for balance and amount are declared
fixed-point with 2 fractional digits (Numeric(15,2) / Numeric(12,2)), but
every account or transaction row the sync path inserts carries a value
converted through Python `float(...)` on its way into the store — the
handling is floating point even though the declared storage scale is 2. -/
theorem C8_sync_handles_amounts_as_float :
    (∀ af tf : FetchResult, ∀ d : ℤ, ∀ db : Store,
      (∀ a ∈ (sync_simplefin af tf d db).store.accounts,
        a ∈ db.accounts ∨ a.balance.isFloat = true) ∧
      (∀ t ∈ (sync_simplefin af tf d db).store.txns,
        t ∈ db.txns ∨ t.amount.isFloat = true)) ∧
    accountBalanceColumn.2 = 2 ∧ transactionAmountColumn.2 = 2 := by
  refine ⟨fun af tf d db => ⟨sync_accounts_float af tf d db, ?_⟩, rfl, rfl⟩
  exact sync_txn_rows af tf d db _
    (fun tid aid u row hrow _ => Or.inr (mkTxn_eq hrow).2.2)
    (fun t ht => Or.inl ht)

theorem C8_sync_handles_amounts_as_float_witness :
    (rowA1 ∈ emptyStore.accounts ∨ rowA1.balance.isFloat = true) ∧
    (rowT1 ∈ storeA1.txns ∨ rowT1.amount.isFloat = true) :=
  ⟨(C8_sync_handles_amounts_as_float.1 fetchA1 fetchA1 30 emptyStore).1
      rowA1 (by decide),
   (C8_sync_handles_amounts_as_float.1 fetchA1 fetchA1 30 storeA1).2
      rowT1 (by decide)⟩

/-- A successful phase 1 that staged no account left the store untouched
and issued no commit. -/
lemma phase1_ok_zero {db : Store} {accounts : List ExtAccount}
    {db1 : Store} {n c : Nat}
    (h : phase1 db accounts = .ok (db1, n, c)) (hn : n = 0) :
    db1 = db ∧ c = 0 := by
  unfold phase1 at h
  split at h
  · rename_i hpos
    split at h
    · injection h with h
      obtain ⟨h1, h2⟩ := Prod.mk.injEq _ _ _ _ ▸ h
      obtain ⟨h2, h3⟩ := Prod.mk.injEq _ _ _ _ ▸ h2
      rw [h2, hn] at hpos
      exact absurd hpos (Nat.lt_irrefl 0)
    · cases h
  · injection h with h
    obtain ⟨h1, h2⟩ := Prod.mk.injEq _ _ _ _ ▸ h
    obtain ⟨h2, h3⟩ := Prod.mk.injEq _ _ _ _ ▸ h2
    exact ⟨h1.symm, h3.symm⟩

/-- Any run takes exactly one of the four control paths of the route. -/
lemma sync_simplefin_cases (af tf : FetchResult) (d : ℤ) (db : Store) :
    (∃ e, af = .error e ∧ sync_simplefin af tf d db = ⟨.http400, db, 0⟩) ∨
    (∃ accounts, af = .ok accounts ∧ phase1 db accounts = .error () ∧
      sync_simplefin af tf d db = ⟨.http500, db, 1⟩) ∨
    (∃ accounts db1 n c e, af = .ok accounts ∧
      phase1 db accounts = .ok (db1, n, c) ∧
      get_transactions tf d = .error e ∧
      sync_simplefin af tf d db = ⟨.http400, db1, c⟩) ∨
    (∃ accounts db1 n c txs, af = .ok accounts ∧
      phase1 db accounts = .ok (db1, n, c) ∧
      get_transactions tf d = .ok txs ∧
      sync_simplefin af tf d db =
        finishRun n db.accounts.length
          (db1.txns.map (fun t => t.id)).length c
          (phase2 (db.accounts.map (fun a => a.id)) db1 txs)) := by
  unfold sync_simplefin get_accounts
  split
  · exact Or.inl ⟨_, rfl, rfl⟩
  · rename_i accounts
    split
    · rename_i e hp
      exact Or.inr (Or.inl ⟨accounts, rfl, hp, rfl⟩)
    · rename_i db1 n c hp
      split
      · rename_i e hgt
        exact Or.inr (Or.inr (Or.inl ⟨accounts, db1, n, c, e, rfl, hp, hgt, rfl⟩))
      · rename_i txs hgt
        exact Or.inr (Or.inr (Or.inr ⟨accounts, db1, n, c, txs, rfl, hp, hgt, rfl⟩))

/-- C9: implicit frame property: a run whose successful report shows zero
added accounts and zero added transactions (nothing was ever staged)
issued no `db.commit()` call at all and left the store identical to the
pre-run store. -/
theorem C9_nothing_staged_issues_no_commit
    (af tf : FetchResult) (d : ℤ) (db : Store) (rep : SyncReport)
    (h : (sync_simplefin af tf d db).outcome = .ok rep)
    (h0 : rep.new_accounts_added = 0)
    (h1 : rep.new_transactions_added = 0) :
    (sync_simplefin af tf d db).store = db ∧
    (sync_simplefin af tf d db).commitCalls = 0 := by
  rcases sync_simplefin_cases af tf d db with
    ⟨e, hae, hs⟩ | ⟨accounts, hae, hp, hs⟩ |
    ⟨accounts, db1, n, c, e, hae, hp, hgt, hs⟩ |
    ⟨accounts, db1, n, c, txs, hae, hp, hgt, hs⟩
  · rw [hs] at h; cases h
  · rw [hs] at h; cases h
  · rw [hs] at h; cases h
  · rw [hs] at h ⊢
    have hrep := finishRun_ok_report h
    have hn : n = 0 := hrep.1.symm.trans h0
    obtain ⟨hdb1, hc⟩ := phase1_ok_zero hp hn
    have hcount :
        (phase2 (db.accounts.map (fun a => a.id)) db1 txs).count = 0 :=
      hrep.2.symm.trans h1
    unfold phase2 at hcount ⊢
    have hfold := foldl_processTx_count_eq
      (db.accounts.map (fun a => a.id))
      (db1.txns.map (fun t => t.id)) txs ⟨db1, [], 0, 0, 0⟩ hcount
    unfold finishRun
    rw [if_neg (by rw [hcount]; exact Nat.lt_irrefl 0)]
    dsimp only
    constructor
    · rw [hfold.1]
      exact hdb1
    · rw [hc, hfold.2]
      rfl

theorem C9_nothing_staged_issues_no_commit_witness :
    (sync_simplefin (.ok []) (.ok []) 30 emptyStore).store = emptyStore ∧
    (sync_simplefin (.ok []) (.ok []) 30 emptyStore).commitCalls = 0 :=
  C9_nothing_staged_issues_no_commit (.ok []) (.ok []) 30 emptyStore
    ⟨0, 0, 0, 0, 0⟩ rfl rfl rfl

/-- C10: the route declares `days_back: int = 30` and performs no
validation of it, so for any lookback below 1 the accounts phase still
runs against the fetched snapshot (and commits any new accounts), and the
run only then aborts as HTTP 400 when `get_transactions` rejects the
non-positive lookback before issuing its request — concretely, a run with
`days_back = 0` returns 400 having already durably added account A1. -/
theorem C10_invalid_days_back_aborts_after_accounts_commit :
    days_back_default = 30 ∧
    (∀ tf : FetchResult, ∀ d : ℤ, d < 1 →
      get_transactions tf d = .error ()) ∧
    (∀ tf : FetchResult, ∀ d : ℤ, ∀ db db1 : Store,
      ∀ accounts : List ExtAccount, ∀ n c : Nat, d < 1 →
      phase1 db accounts = .ok (db1, n, c) →
      sync_simplefin (.ok accounts) tf d db = ⟨.http400, db1, c⟩) ∧
    sync_simplefin fetchA1 fetchA1 0 emptyStore =
      ⟨.http400, ⟨[rowA1], []⟩, 1⟩ := by
  have hgt : ∀ tf : FetchResult, ∀ d : ℤ, d < 1 →
      get_transactions tf d = .error () := by
    intro tf d hd
    unfold get_transactions
    rw [if_pos hd]
  refine ⟨rfl, hgt, ?_, rfl⟩
  intro tf d db db1 accounts n c hd hp
  unfold sync_simplefin get_accounts
  dsimp only
  rw [hp]
  dsimp only
  rw [hgt tf d hd]

theorem C10_invalid_days_back_witness :
    get_transactions fetchA1 0 = .error () ∧
    sync_simplefin (.ok [extA1]) fetchA1 0 emptyStore =
      ⟨.http400, ⟨[rowA1], []⟩, 1⟩ :=
  ⟨C10_invalid_days_back_aborts_after_accounts_commit.2.1 fetchA1 0
     (by decide),
   C10_invalid_days_back_aborts_after_accounts_commit.2.2.1 fetchA1 0
     emptyStore ⟨[rowA1], []⟩ [extA1] 1 1 (by decide) rfl⟩
